import Mathlib

/-!
Verification of `src/pget_util.py` (replicate/pget).

The module coordinates lazy background downloads through filesystem state:
a target file, a sentinel "`<target>.loading`" marker, an environment gate
(`PGET` variable / `/.dockerenv` marker), an external `/usr/bin/pget`
subprocess, and a polling wait.

Shallow embedding choices:
* Strings are `List Char` (`Str`), so suffix manipulation is by plain list
  operations.
* A filesystem is the list of (normalized) path strings that exist; path
  identity is the normalized POSIX string, mirroring how `pathlib.Path`
  renders paths (empty and `.` components dropped, a single leading `/`
  for absolute paths; the special POSIX `//` double-root is treated like a
  single root).
* Python exceptions are `Except PyErr`; an attribute that was never
  assigned is `Option.none`, and reading it raises `AttributeError`.
* A launch call is a pure function from (filesystem, environment) to the
  resulting filesystem plus the ordered trace of side effects (sentinel
  touch, subprocess spawn).
* The stateless polling wait is step-indexed over a time-indexed existence
  oracle; the in-class polling loop is evaluated against the (static)
  filesystem seen at the call, with an explicit "never exits" outcome.
-/

set_option autoImplicit false

namespace PgetUtil

/-- Character strings, as lists of characters. -/
abbrev Str := List Char

/-- Coerce a Lean string literal into the `Str` representation. -/
def str (s : String) : Str := s.toList

/-! ### `pathlib` path model -/

/-- Split a string at every occurrence of a character (like
`str.split(c)` in Python: n+1 pieces for n separators). -/
def splitOnChar (c : Char) : Str → List Str
  | [] => [[]]
  | x :: xs =>
    if x = c then [] :: splitOnChar c xs
    else
      match splitOnChar c xs with
      | [] => [[x]]
      | y :: ys => (x :: y) :: ys

/-- The non-root components of a POSIX path: split on `/`, dropping empty
components and `.` components, as `pathlib` parsing does. -/
def pathParts (s : Str) : List Str :=
  (splitOnChar '/' s).filter (fun p => decide (p ≠ [] ∧ p ≠ ['.']))

/-- Whether the path string is absolute (begins with `/`). -/
def isAbs (s : Str) : Bool :=
  match s with
  | '/' :: _ => true
  | _ => false

/-- Render a parsed path back to its normalized string, the way
`str(pathlib.PurePosixPath(...))` does: `.` for an empty relative path,
`/` for the bare root, otherwise components joined by `/`. -/
def render (abs : Bool) (parts : List Str) : Str :=
  if parts = [] then (if abs then str "/" else str ".")
  else (if abs then ['/'] else []) ++ List.intercalate ['/'] parts

/-- The normalized string of a path: identity of a path on the
filesystem. -/
def normPath (s : Str) : Str := render (isAbs s) (pathParts s)

/-- `pathlib.PurePath.name`: the final path component, or empty. -/
def pathName (s : Str) : Str := ((pathParts s).getLast?).getD []

/-- Index of the last `.` in a name, if any (Python `name.rfind('.')`,
restricted to the found case). -/
def lastDotIdx : Str → Option Nat
  | [] => none
  | x :: xs =>
    match lastDotIdx xs with
    | some i => some (i + 1)
    | none => if x = '.' then some 0 else none

/-- `pathlib.PurePath.suffix` on a name: the part from the last dot on,
provided that dot is neither leading nor trailing (`0 < i < len - 1`). -/
def nameSuffix (n : Str) : Str :=
  match lastDotIdx n with
  | none => []
  | some i => if 0 < i ∧ i < n.length - 1 then n.drop i else []

/-- Python slice `l[:-k]` for `k ≥ 1` (and all of `l` for `k = 0` is not
needed: callers pass `k ≥ 1`): the first `length - k` elements. -/
def dropEnd (l : Str) (k : Nat) : Str := l.take (l.length - k)

/-- The name-rewriting step of `pathlib.PurePath.with_suffix`: strip the
old suffix from the name if there is one, then append the new suffix. -/
def withSuffixName (n : Str) (suf : Str) : Str :=
  if nameSuffix n = [] then n ++ suf
  else dropEnd n (nameSuffix n).length ++ suf

/-- The literal marker suffix appended to the target's suffix. -/
def loadingStr : Str := str ".loading"

/-- The argument passed to `with_suffix` at both call sites:
`file_path.suffix + ".loading"`. -/
def suffixArgOf (s : Str) : Str := nameSuffix (pathName s) ++ loadingStr

/-- `Path(file_name).with_suffix(Path(file_name).suffix + ".loading")`,
the sentinel-path derivation shared by `launch_pget` (line 9) and
`PGetFile.__init__` (lines 43–45). `none` models the `ValueError` raised
by `with_suffix`: for an invalid suffix argument (contains a separator,
misses the leading dot, or is a bare dot) or for a path with an empty
final name. On success the sentinel is the path with its name rewritten
by `withSuffixName`. -/
def deriveSentinel (s : Str) : Option Str :=
  if ('/' : Char) ∈ suffixArgOf s then none
  else if (suffixArgOf s ≠ [] ∧ (suffixArgOf s).head? ≠ some '.') ∨
      suffixArgOf s = ['.'] then none
  else if pathName s = [] then none
  else some (render (isAbs s)
    ((pathParts s).dropLast ++ [withSuffixName (pathName s) (suffixArgOf s)]))

/-! ### Filesystem, environment, effects -/

/-- The filesystem: the set (as a list) of normalized path strings that
exist. `Path(p).exists()` is membership of `normPath p`. -/
abbrev Fs := List Str

/-- Python exceptions that the module can raise. -/
inductive PyErr where
  | valueError
  | attributeError
deriving DecidableEq

/-- Observable side effects of a launch/wait call, in program order. -/
inductive Event where
  /-- `path.touch()`: create the file (zero length, idempotent). -/
  | touch (p : Str)
  /-- `subprocess.Popen(cmd, close_fds=True)`: spawn the detached downloader. -/
  | spawn (cmd : List Str)
  /-- `proc.wait()`: block until the spawned subprocess exits. -/
  | procExitWait (cmd : List Str)
deriving DecidableEq

/-- The process environment: the value of the `PGET` variable
(`none` when unset). -/
structure Env where
  pget : Option Str
deriving DecidableEq

/-- Python truthiness of `os.getenv(...)`: `None` and the empty string
are falsy, every other string truthy. -/
def envTruthy : Option Str → Bool
  | none => false
  | some s => !s.isEmpty

/-- The sandbox marker checked by the gate, `pathlib.Path("/.dockerenv")`
(already in normalized form). -/
def dockerenvPath : Str := str "/.dockerenv"

/-- Line 13 / line 53: `os.getenv("PGET") or not
pathlib.Path("/.dockerenv").exists()` — download iff the override is
truthy or the sandbox marker is absent. -/
def gateAllows (env : Env) (fs : Fs) : Bool :=
  envTruthy env.pget || !(decide (dockerenvPath ∈ fs))

/-- `"https://weights.replicate.delivery/"`, the base of the source
locator (the f-string on lines 14 and 54 concatenates the file name
after it). -/
def baseUrl : Str := str "https://weights.replicate.delivery/"

/-- The external downloader executable. -/
def pgetExe : Str := str "/usr/bin/pget"

/-! ### Stateless entry points: `launch_pget` / `wait_pget` -/

/-- `launch_pget(file_name)` (lines 7–16): derive the sentinel (possible
`ValueError`); return if the target or the sentinel exists; if the gate
allows, touch the sentinel and spawn `/usr/bin/pget <url> <file_name>`.
Result: the filesystem afterwards and the effect trace. -/
def launch_pget (file_name : Str) (fs : Fs) (env : Env) :
    Except PyErr (Fs × List Event) :=
  match deriveSentinel file_name with
  | none => .error .valueError
  | some file_downloading =>
    if normPath file_name ∈ fs ∨ file_downloading ∈ fs then .ok (fs, [])
    else if gateAllows env fs then
      let url := baseUrl ++ file_name
      .ok (file_downloading :: fs,
           [.touch file_downloading, .spawn [pgetExe, url, file_name]])
    else .ok (fs, [])

/-- `wait_pget(file_name)` (lines 19–21), step-indexed: `targetExists k`
tells whether `pathlib.Path(file_name).exists()` holds at the `k`-th
check (each check is followed by a 50 ms sleep when it fails). The call
returns `some n` when the check at tick `n` succeeded within the given
number of checks, `none` when every allowed check failed (the loop is
still spinning). -/
def wait_pget (targetExists : Nat → Bool) : Nat → Nat → Option Nat
  | _, 0 => none
  | k, fuel + 1 =>
    if targetExists k then some k else wait_pget targetExists (k + 1) fuel

/-- The polling interval of both waiting loops: `time.sleep(0.05)`,
i.e. 50 milliseconds. -/
def pollIntervalMs : Nat := 50

/-! ### The stateful entry point: `PGetFile` -/

/-- A value the `proc` attribute can hold, per its annotation
`proc: "None | subprocess.Popen"` (line 38). In the source only
`subprocess.Popen` values are ever assigned. -/
inductive ProcVal where
  | noneV
  | popen (cmd : List Str)
deriving DecidableEq

/-- Python truthiness of a `proc` value: `None` is falsy, a `Popen`
object is truthy. -/
def ProcVal.truthy : ProcVal → Bool
  | .noneV => false
  | .popen _ => true

/-- A `PGetFile` instance: `fname` the raw constructor argument,
`file_path` the normalized string of `pathlib.Path(fname)`,
`downloading` the derived sentinel path, `proc` the `proc` attribute —
`none` when the attribute was never assigned (reading then raises
`AttributeError`), `some v` when it holds `v`. -/
structure PGetFile where
  fname : Str
  file_path : Str
  downloading : Str
  proc : Option ProcVal
deriving DecidableEq

/-- `PGetFile.launch` (lines 48–58): return if the target or the sentinel
exists; if the gate allows, touch the sentinel, spawn the downloader and
store the handle in `self.proc`. Returns the updated instance, the
filesystem afterwards, and the effect trace. -/
def PGetFile.launch (self : PGetFile) (fs : Fs) (env : Env) :
    PGetFile × Fs × List Event :=
  if self.file_path ∈ fs ∨ self.downloading ∈ fs then (self, fs, [])
  else if gateAllows env fs then
    let url := baseUrl ++ self.fname
    let cmd := [pgetExe, url, self.fname]
    ({ self with proc := some (.popen cmd) }, self.downloading :: fs,
     [.touch self.downloading, .spawn cmd])
  else (self, fs, [])

/-- `PGetFile.__init__` (lines 40–46): store the name, the path and the
derived sentinel (possible `ValueError` from `with_suffix`), leave the
`proc` attribute unassigned, then call `launch`. -/
def PGetFile.init (fname : Str) (fs : Fs) (env : Env) :
    Except PyErr (PGetFile × Fs × List Event) :=
  match deriveSentinel fname with
  | none => .error .valueError
  | some downloading =>
    .ok ((PGetFile.mk fname (normPath fname) downloading none).launch fs env)

/-- Outcome of a `PGetFile.wait` call that did not raise. -/
inductive WaitRes where
  /-- The call returned; the instance, filesystem and effect trace after it. -/
  | finished (self : PGetFile) (fs : Fs) (evs : List Event)
  /-- The call is stuck in the polling loop of lines 72–73: against the
  filesystem seen at the call, the target never appears, so the loop
  never exits. -/
  | pollingForever
deriving DecidableEq

/-- `PGetFile.wait` (lines 60–73) against the filesystem seen at the
call. Line 62 reads `self.proc`: if the attribute was never assigned
this raises `AttributeError`; if truthy, block on the subprocess and
return. Otherwise (value `None`): if the sentinel does not exist,
re-launch, read `self.proc` again and block on it when truthy, then
return; else poll `self.file_path` existence every 50 ms. -/
def PGetFile.wait (self : PGetFile) (fs : Fs) (env : Env) :
    Except PyErr WaitRes :=
  match self.proc with
  | none => .error .attributeError
  | some p =>
    match p with
    | .popen c => .ok (.finished self fs [.procExitWait c])
    | .noneV =>
      if ¬ (self.downloading ∈ fs) then
        match self.launch fs env with
        | (self', fs', evs) =>
          match self'.proc with
          | none => .error .attributeError
          | some (.popen c) => .ok (.finished self' fs' (evs ++ [.procExitWait c]))
          | some .noneV => .ok (.finished self' fs' evs)
      else
        if self.file_path ∈ fs then .ok (.finished self fs [])
        else .ok .pollingForever

/-! ### Helper lemmas about the path model -/

/-- No piece produced by `splitOnChar c` contains `c`. -/
theorem not_mem_of_mem_splitOnChar (c : Char) (l : Str) :
    ∀ p ∈ splitOnChar c l, c ∉ p := by
  induction l with
  | nil =>
    intro p hp
    simp only [splitOnChar, List.mem_singleton] at hp
    subst hp
    exact List.not_mem_nil c
  | cons x xs ih =>
    intro p hp
    simp only [splitOnChar] at hp
    by_cases hx : x = c
    · rw [if_pos hx] at hp
      rcases List.mem_cons.mp hp with h | h
      · subst h; exact List.not_mem_nil c
      · exact ih p h
    · rw [if_neg hx] at hp
      cases hs : splitOnChar c xs with
      | nil =>
        rw [hs] at hp
        simp only [List.mem_singleton] at hp
        subst hp
        intro hc
        simp only [List.mem_singleton] at hc
        exact hx hc.symm
      | cons y ys =>
        rw [hs] at hp
        rcases List.mem_cons.mp hp with h | h
        · subst h
          intro hc
          rcases List.mem_cons.mp hc with h1 | h1
          · exact hx h1.symm
          · exact ih y (by rw [hs]; exact List.mem_cons_self y ys) h1
        · exact ih p (by rw [hs]; exact List.mem_cons_of_mem y h)

/-- Parts of a path never contain the separator. -/
theorem not_slash_of_mem_pathParts (s p : Str) (hp : p ∈ pathParts s) :
    ('/' : Char) ∉ p :=
  not_mem_of_mem_splitOnChar '/' s p (List.mem_filter.mp hp).1

/-- A nonempty path name is one of the path's parts. -/
theorem pathName_mem_pathParts (s : Str) (h : pathName s ≠ []) :
    pathName s ∈ pathParts s := by
  unfold pathName at *
  cases hps : pathParts s with
  | nil => rw [hps] at h; simp at h
  | cons a l =>
    have hne : a :: l ≠ [] := List.cons_ne_nil a l
    rw [List.getLast?_eq_getLast _ hne]
    simp only [Option.getD_some]
    exact List.getLast_mem hne

/-- The character found by `lastDotIdx` is a dot. -/
theorem lastDotIdx_elem (n : Str) (i : Nat) (h : lastDotIdx n = some i) :
    n[i]? = some '.' := by
  induction n generalizing i with
  | nil => simp [lastDotIdx] at h
  | cons x xs ih =>
    cases hx : lastDotIdx xs with
    | some j =>
      simp only [lastDotIdx, hx] at h
      injection h with h
      subst h
      rw [List.getElem?_cons_succ]
      exact ih j hx
    | none =>
      simp only [lastDotIdx, hx] at h
      by_cases hd : x = '.'
      · rw [if_pos hd] at h
        injection h with h
        subst h
        rw [List.getElem?_cons_zero, hd]
      · rw [if_neg hd] at h
        cases h

/-- A dot position lies inside the name. -/
theorem lastDotIdx_lt_length (n : Str) (i : Nat) (h : lastDotIdx n = some i) :
    i < n.length := by
  rcases List.getElem?_eq_some.mp (lastDotIdx_elem n i h) with ⟨hl, _⟩
  exact hl

/-- Either a name has no suffix, or its suffix is the final segment from
a dot position. -/
theorem nameSuffix_eq_nil_or_drop (n : Str) :
    nameSuffix n = [] ∨
      ∃ i, i ≤ n.length ∧ n[i]? = some '.' ∧ nameSuffix n = n.drop i := by
  unfold nameSuffix
  cases h : lastDotIdx n with
  | none => exact Or.inl rfl
  | some i =>
    by_cases hc : 0 < i ∧ i < n.length - 1
    · exact Or.inr ⟨i, Nat.le_of_lt (lastDotIdx_lt_length n i h),
        lastDotIdx_elem n i h, by dsimp only; rw [if_pos hc]⟩
    · exact Or.inl (by dsimp only; rw [if_neg hc])

/-- Rewriting a name with its own suffix re-appended just appends: the
old suffix is stripped and immediately restored, never lost. -/
theorem withSuffixName_self_append (n suf : Str) :
    withSuffixName n (nameSuffix n ++ suf) = n ++ suf := by
  unfold withSuffixName
  rcases nameSuffix_eq_nil_or_drop n with h | ⟨i, hi, _, h⟩
  · rw [if_pos h, h]; rfl
  · by_cases hz : nameSuffix n = []
    · rw [if_pos hz, hz]; rfl
    · rw [if_neg hz, h]
      simp only [dropEnd, List.length_drop]
      rw [Nat.sub_sub_self hi, ← List.append_assoc, List.take_append_drop]

/-- The separator never occurs in the suffix passed to `with_suffix`. -/
theorem not_slash_mem_suffixArg (s : Str) : ('/' : Char) ∉ suffixArgOf s := by
  intro hmem
  unfold suffixArgOf at hmem
  rcases List.mem_append.mp hmem with h | h
  · have hsub : ('/' : Char) ∈ pathName s := by
      rcases nameSuffix_eq_nil_or_drop (pathName s) with hn | ⟨i, _, _, hn⟩
      · rw [hn] at h; exact absurd h (List.not_mem_nil _)
      · rw [hn] at h; exact List.drop_subset i _ h
    have hne : pathName s ≠ [] := by
      intro h0; rw [h0] at hsub; exact absurd hsub (List.not_mem_nil _)
    exact not_slash_of_mem_pathParts s _ (pathName_mem_pathParts s hne) hsub
  · exact (by decide : ('/' : Char) ∉ loadingStr) h

/-- The suffix passed to `with_suffix` starts with a dot. -/
theorem suffixArg_head (s : Str) : (suffixArgOf s).head? = some '.' := by
  unfold suffixArgOf
  cases hd : nameSuffix (pathName s) with
  | nil => rfl
  | cons a as =>
    have hh : (nameSuffix (pathName s)).head? = some '.' := by
      rcases nameSuffix_eq_nil_or_drop (pathName s) with hn | ⟨i, _, hdot, hn⟩
      · rw [hn] at hd; cases hd
      · rw [hn, List.head?_drop]; exact hdot
    rw [hd] at hh
    simp only [List.head?_cons, Option.some.injEq] at hh
    simp only [List.cons_append, List.head?_cons, hh]

/-- The suffix passed to `with_suffix` is never the bare dot. -/
theorem suffixArg_ne_dot (s : Str) : suffixArgOf s ≠ ['.'] := by
  intro h
  have hlen := congrArg List.length h
  simp only [suffixArgOf, List.length_append, List.length_singleton] at hlen
  have h8 : loadingStr.length = 8 := by decide
  omega

/-- The two suffix-validity guards of `with_suffix` never fire for the
argument `suffix + ".loading"`. -/
theorem suffixArg_valid (s : Str) :
    ¬ ((suffixArgOf s ≠ [] ∧ (suffixArgOf s).head? ≠ some '.') ∨
        suffixArgOf s = ['.']) := by
  rintro (⟨-, hh⟩ | h)
  · exact hh (suffixArg_head s)
  · exact suffixArg_ne_dot s h

/-! ### Helper lemmas about launching and waiting -/

/-- `PGetFile.launch` is a no-op unless the target and the sentinel are
both absent and the gate allows downloading. -/
theorem PGetFile.launch_noop (self : PGetFile) (fs : Fs) (env : Env)
    (h : (self.file_path ∈ fs ∨ self.downloading ∈ fs) ∨
      gateAllows env fs = false) :
    self.launch fs env = (self, fs, []) := by
  unfold PGetFile.launch
  by_cases h1 : self.file_path ∈ fs ∨ self.downloading ∈ fs
  · rw [if_pos h1]
  · rw [if_neg h1]
    rcases h with h | h
    · exact absurd h h1
    · rw [if_neg (by simp [h])]

/-- When target and sentinel are absent and the gate allows, launching
touches the sentinel, spawns the downloader and stores the handle. -/
theorem PGetFile.launch_spawn (self : PGetFile) (fs : Fs) (env : Env)
    (h1 : ¬ (self.file_path ∈ fs ∨ self.downloading ∈ fs))
    (h2 : gateAllows env fs = true) :
    self.launch fs env =
      ({ self with
          proc := some (.popen [pgetExe, baseUrl ++ self.fname, self.fname]) },
       self.downloading :: fs,
       [.touch self.downloading,
        .spawn [pgetExe, baseUrl ++ self.fname, self.fname]]) := by
  unfold PGetFile.launch
  rw [if_neg h1, if_pos h2]

/-- `launch_pget` is a no-op unless the target and the sentinel are both
absent and the gate allows downloading. -/
theorem launch_pget_noop (fname : Str) (fs : Fs) (env : Env) (sent : Str)
    (hs : deriveSentinel fname = some sent)
    (h : (normPath fname ∈ fs ∨ sent ∈ fs) ∨ gateAllows env fs = false) :
    launch_pget fname fs env = .ok (fs, []) := by
  unfold launch_pget
  rw [hs]
  dsimp only
  by_cases h1 : normPath fname ∈ fs ∨ sent ∈ fs
  · rw [if_pos h1]
  · rw [if_neg h1]
    rcases h with h | h
    · exact absurd h h1
    · rw [if_neg (by simp [h])]

/-- Reading the never-assigned `proc` attribute raises before anything
else `wait` would do. -/
theorem PGetFile.wait_unset (self : PGetFile) (fs : Fs) (env : Env)
    (h : self.proc = none) : self.wait fs env = .error .attributeError := by
  unfold PGetFile.wait
  rw [h]

/-- The polling loop with a successful first check returns at once. -/
theorem wait_pget_first_check (e : Nat → Bool) (k fuel : Nat)
    (h : e k = true) : wait_pget e k (fuel + 1) = some k := by
  unfold wait_pget
  rw [h]
  rfl

/-- If the target never exists, the polling loop never returns, no
matter how many checks are allowed. -/
theorem wait_pget_eq_none (e : Nat → Bool) (he : ∀ k, e k = false)
    (k fuel : Nat) : wait_pget e k fuel = none := by
  induction fuel generalizing k with
  | zero => rfl
  | succ m ih =>
    unfold wait_pget
    rw [he k]
    simpa using ih (k + 1)

/-! ### The claims -/

/-- Claim C1 (a bug in the code, not in the claim): the spec says that a
`PGetFile` whose launch spawned nothing, called to `wait` while the
sentinel exists, polls for the target at a fixed 50 ms interval until it
exists. In the code the `proc` attribute is never initialised (only
annotated on line 38 as `None | Popen`), so at this concrete failing
input — target `weights.bin` absent, sentinel `weights.bin.loading`
present, so the constructor-time launch spawns nothing — `wait` raises
`AttributeError` at its very first statement `if self.proc:` (line 62)
and the polling loop of lines 72–73 is never reached. -/
theorem claim1_wait_raises_instead_of_polling :
    PGetFile.init (str "weights.bin") [str "weights.bin.loading"] ⟨none⟩ =
      .ok (PGetFile.mk (str "weights.bin") (str "weights.bin")
        (str "weights.bin.loading") none, [str "weights.bin.loading"], []) ∧
    PGetFile.wait
      (PGetFile.mk (str "weights.bin") (str "weights.bin")
        (str "weights.bin.loading") none)
      [str "weights.bin.loading"] ⟨none⟩ = .error .attributeError :=
  ⟨rfl, rfl⟩

/-- Claim C2: whenever the constructor-time launch spawns nothing —
because the target existed, the sentinel existed, or the gate forbade
downloading — the constructed instance's `proc` attribute is still
unassigned, and `wait` raises `AttributeError` at its first access of
`self.proc`, against every filesystem and environment, so in particular
before the polling loop could be reached. -/
theorem claim2_unassigned_proc_wait_raises (fname : Str) (fs : Fs) (env : Env)
    (sent : Str)
    (hs : deriveSentinel fname = some sent)
    (hcause : normPath fname ∈ fs ∨ sent ∈ fs ∨ gateAllows env fs = false) :
    PGetFile.init fname fs env =
      .ok (PGetFile.mk fname (normPath fname) sent none, fs, []) ∧
    (PGetFile.mk fname (normPath fname) sent none).proc = none ∧
    ∀ (fsW : Fs) (envW : Env),
      (PGetFile.mk fname (normPath fname) sent none).wait fsW envW =
        .error .attributeError := by
  have hnoop :
      (PGetFile.mk fname (normPath fname) sent none).launch fs env =
        (PGetFile.mk fname (normPath fname) sent none, fs, []) := by
    apply PGetFile.launch_noop
    rcases hcause with h | h | h
    · exact Or.inl (Or.inl h)
    · exact Or.inl (Or.inr h)
    · exact Or.inr h
  refine ⟨?_, rfl, ?_⟩
  · unfold PGetFile.init
    rw [hs]
    dsimp only
    rw [hnoop]
  · intro fsW envW
    exact PGetFile.wait_unset _ _ _ rfl

/-- Witness for C2 at a concrete input: sentinel `model.ckpt.loading`
already exists, so the constructor spawns nothing, `proc` stays
unassigned and `wait` raises `AttributeError`. -/
theorem claim2_witness :
    PGetFile.init (str "model.ckpt") [str "model.ckpt.loading"] ⟨none⟩ =
      .ok (PGetFile.mk (str "model.ckpt") (str "model.ckpt")
        (str "model.ckpt.loading") none, [str "model.ckpt.loading"], []) ∧
    (PGetFile.mk (str "model.ckpt") (str "model.ckpt")
      (str "model.ckpt.loading") none).proc = none ∧
    (PGetFile.mk (str "model.ckpt") (str "model.ckpt")
      (str "model.ckpt.loading") none).wait [] ⟨none⟩ =
      .error .attributeError := by
  have h := claim2_unassigned_proc_wait_raises (str "model.ckpt")
    [str "model.ckpt.loading"] ⟨none⟩ (str "model.ckpt.loading") rfl
    (Or.inr (Or.inl (by decide)))
  exact ⟨h.1, h.2.1, h.2.2 [] ⟨none⟩⟩

/-- Counterexample to C3 as stated: with target `weights.bin` present,
`PGetFile.wait` does not "return without blocking": it raises
`AttributeError` on its first access of the never-assigned `proc`
attribute, target presence notwithstanding. -/
theorem claim3_counterexample :
    PGetFile.init (str "weights.bin") [str "weights.bin"] ⟨none⟩ =
      .ok (PGetFile.mk (str "weights.bin") (str "weights.bin")
        (str "weights.bin.loading") none, [str "weights.bin"], []) ∧
    PGetFile.wait
      (PGetFile.mk (str "weights.bin") (str "weights.bin")
        (str "weights.bin.loading") none)
      [str "weights.bin"] ⟨none⟩ = .error .attributeError :=
  ⟨rfl, rfl⟩

/-- Claim C3, amended: once the target file exists, its presence
short-circuits `launch_pget`, `PGetFile.launch` and `wait_pget` — they
return without spawning, without creating a sentinel and without
blocking (the stateless wait succeeds at its very first check).
`PGetFile.wait` is excluded: it consults the `proc` attribute first. -/
theorem claim3_amended_target_short_circuits (fname : Str) (fs : Fs)
    (env : Env) (sent : Str) (self : PGetFile)
    (hs : deriveSentinel fname = some sent)
    (hex : normPath fname ∈ fs)
    (hf : self.file_path = normPath fname) :
    launch_pget fname fs env = .ok (fs, []) ∧
    PGetFile.launch self fs env = (self, fs, []) ∧
    ∀ k fuel,
      wait_pget (fun _ => decide (normPath fname ∈ fs)) k (fuel + 1) = some k := by
  refine ⟨launch_pget_noop fname fs env sent hs (Or.inl (Or.inl hex)),
    PGetFile.launch_noop self fs env (Or.inl (Or.inl (by rw [hf]; exact hex))),
    ?_⟩
  intro k fuel
  exact wait_pget_first_check _ k fuel (decide_eq_true hex)

/-- Witness for amended C3 at a concrete input: target `data.bin`
present, everything returns at once. -/
theorem claim3_witness :
    launch_pget (str "data.bin") [str "data.bin"] ⟨none⟩ =
      .ok ([str "data.bin"], []) ∧
    PGetFile.launch
      (PGetFile.mk (str "data.bin") (str "data.bin")
        (str "data.bin.loading") none) [str "data.bin"] ⟨none⟩ =
      (PGetFile.mk (str "data.bin") (str "data.bin")
        (str "data.bin.loading") none, [str "data.bin"], []) ∧
    wait_pget (fun _ => decide (normPath (str "data.bin") ∈ [str "data.bin"]))
      0 1 = some 0 := by
  have h := claim3_amended_target_short_circuits (str "data.bin")
    [str "data.bin"] ⟨none⟩ (str "data.bin.loading")
    (PGetFile.mk (str "data.bin") (str "data.bin") (str "data.bin.loading") none)
    rfl (by decide) rfl
  exact ⟨h.1, h.2.1, h.2.2 0 0⟩

/-- Counterexample to C4 as stated: with the gate forbidding downloads
(`PGET` unset, `/.dockerenv` present) the subsequent `PGetFile.wait`
does not block forever — it terminates at once by raising
`AttributeError` on the never-assigned `proc` attribute. -/
theorem claim4_counterexample :
    PGetFile.init (str "weights.bin") [str "/.dockerenv"] ⟨none⟩ =
      .ok (PGetFile.mk (str "weights.bin") (str "weights.bin")
        (str "weights.bin.loading") none, [str "/.dockerenv"], []) ∧
    PGetFile.wait
      (PGetFile.mk (str "weights.bin") (str "weights.bin")
        (str "weights.bin.loading") none)
      [str "/.dockerenv"] ⟨none⟩ = .error .attributeError :=
  ⟨rfl, rfl⟩

/-- Claim C4, amended: when the gate forbids downloading (override falsy
and sandbox marker present), launch creates no sentinel and spawns no
subprocess; a subsequent stateless `wait_pget` blocks forever (no number
of checks makes it return) unless the target is created externally,
while a subsequent `PGetFile.wait` instead raises `AttributeError`
immediately. -/
theorem claim4_amended_gate_forbids (fname : Str) (fs : Fs) (env : Env)
    (sent : Str)
    (hs : deriveSentinel fname = some sent)
    (hpg : envTruthy env.pget = false)
    (hdk : dockerenvPath ∈ fs)
    (hnt : normPath fname ∉ fs) (hns : sent ∉ fs) :
    launch_pget fname fs env = .ok (fs, []) ∧
    (∀ k fuel, wait_pget (fun _ => decide (normPath fname ∈ fs)) k fuel = none) ∧
    PGetFile.init fname fs env =
      .ok (PGetFile.mk fname (normPath fname) sent none, fs, []) ∧
    (PGetFile.mk fname (normPath fname) sent none).wait fs env =
      .error .attributeError := by
  have hgate : gateAllows env fs = false := by
    unfold gateAllows
    rw [hpg]
    simp [hdk]
  refine ⟨launch_pget_noop fname fs env sent hs (Or.inr hgate), ?_, ?_,
    PGetFile.wait_unset _ _ _ rfl⟩
  · intro k fuel
    exact wait_pget_eq_none _ (fun _ => decide_eq_false hnt) k fuel
  · unfold PGetFile.init
    rw [hs]
    dsimp only
    rw [PGetFile.launch_noop _ _ _ (Or.inr hgate)]

/-- Witness for amended C4 at a concrete input: `PGET` unset and
`/.dockerenv` present. -/
theorem claim4_witness :
    launch_pget (str "w.bin") [str "/.dockerenv"] ⟨none⟩ =
      .ok ([str "/.dockerenv"], []) ∧
    wait_pget (fun _ => decide (normPath (str "w.bin") ∈ [str "/.dockerenv"]))
      3 2 = none ∧
    PGetFile.init (str "w.bin") [str "/.dockerenv"] ⟨none⟩ =
      .ok (PGetFile.mk (str "w.bin") (str "w.bin")
        (str "w.bin.loading") none, [str "/.dockerenv"], []) ∧
    (PGetFile.mk (str "w.bin") (str "w.bin") (str "w.bin.loading") none).wait
      [str "/.dockerenv"] ⟨none⟩ = .error .attributeError := by
  have h := claim4_amended_gate_forbids (str "w.bin") [str "/.dockerenv"]
    ⟨none⟩ (str "w.bin.loading") rfl rfl (by decide) (by decide) (by decide)
  exact ⟨h.1, h.2.1 3 2, h.2.2.1, h.2.2.2⟩

/-- Claim C5: if at launch time the target or the sentinel already
exists, both `launch_pget` and `PGetFile.launch` spawn no subprocess,
create no sentinel and leave the filesystem unchanged — and since the
state is unchanged, repeating the call is the same pure no-op. -/
theorem claim5_existing_launch_noop (fname : Str) (fs : Fs) (env : Env)
    (sent : Str) (self : PGetFile)
    (hs : deriveSentinel fname = some sent)
    (hex : normPath fname ∈ fs ∨ sent ∈ fs)
    (hf : self.file_path = normPath fname) (hd : self.downloading = sent) :
    launch_pget fname fs env = .ok (fs, []) ∧
    PGetFile.launch self fs env = (self, fs, []) := by
  refine ⟨launch_pget_noop fname fs env sent hs (Or.inl hex), ?_⟩
  apply PGetFile.launch_noop
  rcases hex with h | h
  · exact Or.inl (Or.inl (by rw [hf]; exact h))
  · exact Or.inl (Or.inr (by rw [hd]; exact h))

/-- Witness for C5 at a concrete input: target `model.ckpt` present. -/
theorem claim5_witness :
    launch_pget (str "model.ckpt") [str "model.ckpt"] ⟨none⟩ =
      .ok ([str "model.ckpt"], []) ∧
    PGetFile.launch
      (PGetFile.mk (str "model.ckpt") (str "model.ckpt")
        (str "model.ckpt.loading") none) [str "model.ckpt"] ⟨none⟩ =
      (PGetFile.mk (str "model.ckpt") (str "model.ckpt")
        (str "model.ckpt.loading") none, [str "model.ckpt"], []) :=
  claim5_existing_launch_noop (str "model.ckpt") [str "model.ckpt"] ⟨none⟩
    (str "model.ckpt.loading")
    (PGetFile.mk (str "model.ckpt") (str "model.ckpt")
      (str "model.ckpt.loading") none)
    rfl (Or.inl (by decide)) rfl rfl

/-- Claim C6: whenever launch decides to download, the effect trace is
exactly: first touch the sentinel, then spawn the downloader with the
two positional arguments source locator (the fixed base concatenated
with the target name) and destination path, in that order — for both
`launch_pget` and `PGetFile.launch`. -/
theorem claim6_touch_then_spawn :
    (∀ (fname : Str) (fs : Fs) (env : Env) (fs' : Fs) (evs : List Event)
        (sent : Str),
      launch_pget fname fs env = .ok (fs', evs) →
      deriveSentinel fname = some sent →
      (∃ c, Event.spawn c ∈ evs) →
      evs = [Event.touch sent,
             Event.spawn [pgetExe, baseUrl ++ fname, fname]] ∧
        fs' = sent :: fs) ∧
    (∀ (self : PGetFile) (fs : Fs) (env : Env) (self' : PGetFile) (fs' : Fs)
        (evs : List Event),
      PGetFile.launch self fs env = (self', fs', evs) →
      (∃ c, Event.spawn c ∈ evs) →
      evs = [Event.touch self.downloading,
             Event.spawn [pgetExe, baseUrl ++ self.fname, self.fname]] ∧
        fs' = self.downloading :: fs) := by
  constructor
  · intro fname fs env fs' evs sent h hs hspawn
    unfold launch_pget at h
    rw [hs] at h
    dsimp only at h
    by_cases h1 : normPath fname ∈ fs ∨ sent ∈ fs
    · rw [if_pos h1] at h
      simp only [Except.ok.injEq, Prod.mk.injEq] at h
      obtain ⟨rfl, rfl⟩ := h
      rcases hspawn with ⟨c, hc⟩
      exact absurd hc (List.not_mem_nil _)
    · rw [if_neg h1] at h
      by_cases hg : gateAllows env fs = true
      · rw [if_pos hg] at h
        simp only [Except.ok.injEq, Prod.mk.injEq] at h
        obtain ⟨rfl, rfl⟩ := h
        exact ⟨rfl, rfl⟩
      · rw [if_neg hg] at h
        simp only [Except.ok.injEq, Prod.mk.injEq] at h
        obtain ⟨rfl, rfl⟩ := h
        rcases hspawn with ⟨c, hc⟩
        exact absurd hc (List.not_mem_nil _)
  · intro self fs env self' fs' evs h hspawn
    unfold PGetFile.launch at h
    by_cases h1 : self.file_path ∈ fs ∨ self.downloading ∈ fs
    · rw [if_pos h1] at h
      simp only [Prod.mk.injEq] at h
      obtain ⟨rfl, rfl, rfl⟩ := h
      rcases hspawn with ⟨c, hc⟩
      exact absurd hc (List.not_mem_nil _)
    · rw [if_neg h1] at h
      by_cases hg : gateAllows env fs = true
      · rw [if_pos hg] at h
        simp only [Prod.mk.injEq] at h
        obtain ⟨rfl, rfl, rfl⟩ := h
        exact ⟨rfl, rfl⟩
      · rw [if_neg hg] at h
        simp only [Prod.mk.injEq] at h
        obtain ⟨rfl, rfl, rfl⟩ := h
        rcases hspawn with ⟨c, hc⟩
        exact absurd hc (List.not_mem_nil _)

/-- Witness for C6 at a concrete input: spawning launch of
`weights.bin` on an empty filesystem with the gate open. -/
theorem claim6_witness :
    [Event.touch (str "weights.bin.loading"),
     Event.spawn [pgetExe, baseUrl ++ str "weights.bin", str "weights.bin"]] =
      [Event.touch (str "weights.bin.loading"),
       Event.spawn [pgetExe, baseUrl ++ str "weights.bin", str "weights.bin"]] ∧
    [str "weights.bin.loading"] = str "weights.bin.loading" :: ([] : Fs) :=
  claim6_touch_then_spawn.1 (str "weights.bin") [] ⟨none⟩
    [str "weights.bin.loading"]
    [Event.touch (str "weights.bin.loading"),
     Event.spawn [pgetExe, baseUrl ++ str "weights.bin", str "weights.bin"]]
    (str "weights.bin.loading") rfl rfl
    ⟨[pgetExe, baseUrl ++ str "weights.bin", str "weights.bin"], by decide⟩

/-- Claim C7: whenever the sentinel derivation succeeds, the derived
path is the target path with `.loading` appended after the name's
existing suffix — the name becomes `name ++ ".loading"`, the original
suffix is never replaced, and the directory part is untouched. -/
theorem claim7_sentinel_appends_marker (s q : Str)
    (h : deriveSentinel s = some q) :
    q = render (isAbs s) ((pathParts s).dropLast ++ [pathName s ++ loadingStr]) := by
  unfold deriveSentinel at h
  rw [if_neg (not_slash_mem_suffixArg s), if_neg (suffixArg_valid s)] at h
  by_cases hn : pathName s = []
  · rw [if_pos hn] at h; cases h
  · rw [if_neg hn] at h
    injection h with h
    rw [← h]
    unfold suffixArgOf
    rw [withSuffixName_self_append]

/-- Witness for C7 at a concrete input: `model.ckpt` derives
`model.ckpt.loading`, keeping the `.ckpt` suffix. -/
theorem claim7_witness :
    deriveSentinel (str "model.ckpt") = some (str "model.ckpt.loading") ∧
    str "model.ckpt.loading" =
      render (isAbs (str "model.ckpt"))
        ((pathParts (str "model.ckpt")).dropLast ++
          [pathName (str "model.ckpt") ++ loadingStr]) :=
  ⟨rfl, claim7_sentinel_appends_marker (str "model.ckpt")
    (str "model.ckpt.loading") rfl⟩

/-- Counterexample to C8 as stated: the sentinel derivation is not
total — on the path strings `""` and `"/"` (whose final name component
is empty) `with_suffix` raises `ValueError`, modelled as `none`. -/
theorem claim8_counterexample :
    deriveSentinel (str "") = none ∧ deriveSentinel (str "/") = none :=
  ⟨rfl, rfl⟩

/-- Claim C8, amended: the sentinel derivation is a pure function of the
path string that performs no I/O, and it returns a sentinel path for
every target path except exactly those whose final name component is
empty (such as `""`, `"."`, `"/"`), where `with_suffix` raises
`ValueError` — its two suffix-validity guards never fire for the
argument `suffix + ".loading"`. -/
theorem claim8_amended_totality (s : Str) :
    deriveSentinel s = none ↔ pathName s = [] := by
  unfold deriveSentinel
  rw [if_neg (not_slash_mem_suffixArg s), if_neg (suffixArg_valid s)]
  by_cases hn : pathName s = []
  · simp [hn]
  · simp [hn]

/-- Witness for amended C8 at a concrete input: the bare-dot path has an
empty name, so derivation fails on it. -/
theorem claim8_witness : deriveSentinel (str ".") = none :=
  (claim8_amended_totality (str ".")).mpr (by decide)

/-- Claim C9: the stateless polling wait never returns while the target
is absent — whenever `wait_pget` returns, it returns the tick of a check
at which the target existed, and that check is its most recent one. -/
theorem claim9_wait_pget_returns_only_when_exists (e : Nat → Bool)
    (k fuel n : Nat) (h : wait_pget e k fuel = some n) : e n = true := by
  induction fuel generalizing k with
  | zero => simp [wait_pget] at h
  | succ m ih =>
    unfold wait_pget at h
    by_cases hk : e k = true
    · rw [if_pos hk] at h
      injection h with h
      subst h
      exact hk
    · rw [if_neg hk] at h
      exact ih (k + 1) h

/-- Witness for C9 at a concrete input: an oracle giving existence from
tick 3; the wait returns 3 and the target indeed exists at tick 3. -/
theorem claim9_witness : (fun k : Nat => decide (3 ≤ k)) 3 = true :=
  claim9_wait_pget_returns_only_when_exists
    (fun k : Nat => decide (3 ≤ k)) 0 10 3 (by decide)

/-- Claim C10: for the same target name, filesystem and environment, the
stateless `launch_pget` and the stateful `PGetFile.init` (construction,
which calls `PGetFile.launch`) raise together, make the same launch
decision and produce the same side effects — same resulting filesystem,
same sentinel touch, same gate condition, same downloader command — and
differ only in that the instance retains the subprocess handle: `proc`
holds exactly the command that was spawned, and stays unassigned when
nothing was. -/
theorem claim10_entry_points_agree (fname : Str) (fs : Fs) (env : Env) :
    Except.map Prod.snd (PGetFile.init fname fs env) =
      launch_pget fname fs env ∧
    (∀ (inst : PGetFile) (fs' : Fs) (evs : List Event) (c : List Str),
      PGetFile.init fname fs env = .ok (inst, fs', evs) →
      Event.spawn c ∈ evs → inst.proc = some (ProcVal.popen c)) ∧
    (∀ (inst : PGetFile) (fs' : Fs) (evs : List Event),
      PGetFile.init fname fs env = .ok (inst, fs', evs) →
      (∀ c, Event.spawn c ∉ evs) → inst.proc = none) := by
  unfold PGetFile.init launch_pget
  cases hs : deriveSentinel fname with
  | none =>
    refine ⟨rfl, ?_, ?_⟩
    · intro inst fs' evs c h
      simp at h
    · intro inst fs' evs h
      simp at h
  | some sent =>
    dsimp only
    unfold PGetFile.launch
    dsimp only
    by_cases h1 : normPath fname ∈ fs ∨ sent ∈ fs
    · rw [if_pos h1, if_pos h1]
      refine ⟨rfl, ?_, ?_⟩
      · intro inst fs' evs c h hc
        simp only [Except.ok.injEq, Prod.mk.injEq] at h
        obtain ⟨-, -, hevs⟩ := h
        rw [← hevs] at hc
        exact absurd hc (List.not_mem_nil _)
      · intro inst fs' evs h hno
        simp only [Except.ok.injEq, Prod.mk.injEq] at h
        rw [← h.1]
    · rw [if_neg h1, if_neg h1]
      by_cases hg : gateAllows env fs = true
      · rw [if_pos hg, if_pos hg]
        refine ⟨rfl, ?_, ?_⟩
        · intro inst fs' evs c h hc
          simp only [Except.ok.injEq, Prod.mk.injEq] at h
          obtain ⟨hinst, -, hevs⟩ := h
          rw [← hevs] at hc
          rcases List.mem_cons.mp hc with he | he
          · simp at he
          · rcases List.mem_cons.mp he with he2 | he2
            · injection he2 with he2
              rw [← hinst, he2]
            · exact absurd he2 (List.not_mem_nil _)
        · intro inst fs' evs h hno
          simp only [Except.ok.injEq, Prod.mk.injEq] at h
          obtain ⟨-, -, hevs⟩ := h
          refine absurd ?_ (hno [pgetExe, baseUrl ++ fname, fname])
          rw [← hevs]
          exact List.mem_cons_of_mem _ (List.mem_cons_self _ _)
      · rw [if_neg hg, if_neg hg]
        refine ⟨rfl, ?_, ?_⟩
        · intro inst fs' evs c h hc
          simp only [Except.ok.injEq, Prod.mk.injEq] at h
          obtain ⟨-, -, hevs⟩ := h
          rw [← hevs] at hc
          exact absurd hc (List.not_mem_nil _)
        · intro inst fs' evs h hno
          simp only [Except.ok.injEq, Prod.mk.injEq] at h
          rw [← h.1]

/-- Witness for C10 at a concrete input: a spawning launch of
`weights.bin`, where the stateless and stateful results agree and the
retained handle holds exactly the spawned command. -/
theorem claim10_witness :
    Except.map Prod.snd (PGetFile.init (str "weights.bin") [] ⟨none⟩) =
      launch_pget (str "weights.bin") [] ⟨none⟩ ∧
    (PGetFile.mk (str "weights.bin") (str "weights.bin")
      (str "weights.bin.loading")
      (some (ProcVal.popen
        [pgetExe, baseUrl ++ str "weights.bin", str "weights.bin"]))).proc =
      some (ProcVal.popen
        [pgetExe, baseUrl ++ str "weights.bin", str "weights.bin"]) := by
  have h := claim10_entry_points_agree (str "weights.bin") [] ⟨none⟩
  exact ⟨h.1, h.2.1
    (PGetFile.mk (str "weights.bin") (str "weights.bin")
      (str "weights.bin.loading")
      (some (ProcVal.popen
        [pgetExe, baseUrl ++ str "weights.bin", str "weights.bin"])))
    [str "weights.bin.loading"]
    [Event.touch (str "weights.bin.loading"),
     Event.spawn [pgetExe, baseUrl ++ str "weights.bin", str "weights.bin"]]
    [pgetExe, baseUrl ++ str "weights.bin", str "weights.bin"]
    rfl (by decide)⟩

end PgetUtil
